import Mathlib

/-!
Verification development for the paginated spreadsheet read API in `app.py`.

The program serves pages of rows from xlsx sheets via three
`pandas.read_excel(..., engine='openpyxl')` calls per request:
a full read restricted to the first column (row count), a windowed read with
`skiprows=range(1, start+1)` and `nrows=PER_PAGE`, and a header-only read with
`nrows=0`.  The model below embeds the relevant pandas pipeline:

* `OpenpyxlReader.get_sheet_data`: every absent cell is converted to the empty
  string, trailing empty cells of each row are popped, trailing all-empty rows
  are trimmed, and all remaining rows are padded with empty strings to the
  common maximal width.  With `file_rows_needed = n` only the first `n` raw
  rows are consumed.
* The `TextParser`/`PythonParser` pipeline: `skiprows` positions are indices
  into the raw row list; a line of width one whose only cell is blank (and any
  width-zero line) is removed by the blank-line filter; the header is the
  first kept line; empty header cells become `Unnamed: i` and duplicate names
  are deduplicated; index inference buffers up to two data lines; a read with
  `nrows = n` takes the buffered lines plus a raw slice of the remaining
  `n - |buffer|` rows, from which skipped and blank lines are then removed.
* Cell scalars are modelled as their string rendering; a parsed value equal to
  one of the default NA strings becomes an absent value (pandas NaN).

The HTTP layer of `app.py` (Flask) is modelled by `get_sheet_data` below:
the file-existence check, page validation via Python `int()`, the generic
`except Exception` 500 handler around the pandas calls, the
`df.columns = ...` reassignment (which raises on a length mismatch), the
`has_more` computation and the `next_page` URL built with `urllib.parse.quote`.
Authentication and rate limiting are outside the modelled routes.
-/

/-- A cell is modelled by the string pandas' openpyxl reader produces for it;
an absent/empty cell is `""` (`_convert_cell` maps `None` to `""`). -/
abbrev Row := List String

/-- A sheet as the openpyxl reader yields it: the raw rows, in order.  The
first row (if any) is the header row. -/
abbrev SheetData := List Row

/-- A workbook: sheets addressed by name. -/
abbrev Workbook := List (String × SheetData)

/-- The data directory: xlsx files addressed by filename. -/
abbrev FileSystem := List (String × Workbook)

/-- The loop `while converted_row and converted_row[-1] == "": converted_row.pop()`:
drop the trailing run of empty cells of one row. -/
def trimTrailingEmpty : Row → Row
  | [] => []
  | c :: cs =>
    match trimTrailingEmpty cs with
    | [] => if c = "" then [] else [c]
    | t => c :: t

/-- The trim `data = data[: last_row_with_data + 1]`: drop the trailing run of rows
that became `[]` after `trimTrailingEmpty`. -/
def dropTrailingBlank : List Row → List Row
  | [] => []
  | r :: rs =>
    match dropTrailingBlank rs with
    | [] => if r = [] then [] else [r]
    | t => r :: t

/-- Pad a row on the right with empty cells up to width `w`. -/
def padTo (w : Nat) (r : Row) : Row := r ++ List.replicate (w - r.length) ""

/-- Pandas computes `max_width = max(len(data_row) for data_row in data)` (0 for no rows). -/
def maxWidth (l : List Row) : Nat := l.foldr (fun r m => max r.length m) 0

/-- Common part of `OpenpyxlReader.get_sheet_data`: trim each row's trailing
empty cells, trim trailing all-empty rows, pad everything to the maximal
width. -/
def sheetNorm (l : List Row) : List Row :=
  let d := dropTrailingBlank (l.map trimTrailingEmpty)
  d.map (padTo (maxWidth d))

/-- The reader `OpenpyxlReader.get_sheet_data` with an optional `file_rows_needed` bound
on the number of raw rows consumed. -/
def getSheetData (sheet : SheetData) (fileRowsNeeded : Option Nat) : List Row :=
  match fileRowsNeeded with
  | none => sheetNorm sheet
  | some n => sheetNorm (sheet.take n)

/-- ASCII whitespace as Python `str.strip()` removes it (the non-ASCII
whitespace code points are not modelled). -/
def isPySpace (c : Char) : Bool :=
  c = ' ' || c = '\t' || c = '\n' || c = '\r' || c = '\x0b' || c = '\x0c'

/-- Python `str.strip()`. -/
def pyStrip (s : String) : String :=
  ((((s.toList.dropWhile isPySpace).reverse).dropWhile isPySpace).reverse).asString

/-- The filter `PythonParser._remove_empty_lines` keeps a line iff it has more than one
cell, or exactly one cell that is not blank after stripping (all our scalars
are strings, so the `isinstance` escape never fires). -/
def lineKept (l : Row) : Bool :=
  decide (1 < l.length) || (decide (l.length = 1) && decide (pyStrip (l.headD "") ≠ ""))

/-- Membership in `skiprows = range(1, start + 1)`. -/
def inSkip (start i : Nat) : Bool := decide (1 ≤ i) && decide (i ≤ start)

/-- Exit position of `while self.pos in self.skiprows: self.pos += 1` for the
contiguous skip set `range(1, start + 1)`. -/
def skipAdvance (start pos : Nat) : Nat :=
  if 1 ≤ pos ∧ pos ≤ start then start + 1 else pos

/-- Scan a suffix of the raw rows for the first line the blank-line filter
keeps; also return its offset. -/
def findKeptIdx : List Row → Option (Row × Nat)
  | [] => none
  | r :: rs =>
    if lineKept r then some (r, 0)
    else (findKeptIdx rs).map (fun p => (p.1, p.2 + 1))

/-- The reader step `PythonParser._next_line` on list data: first skip the skiprows positions,
then take raw rows until one passes the blank-line filter.  Returns the line
(if any) and the parser position after it (`StopIteration` leaves the position
at or beyond the end). -/
def nextLine (data : List Row) (start pos : Nat) : Option Row × Nat :=
  let p := skipAdvance start pos
  match findKeptIdx (data.drop p) with
  | some (r, i) => (some r, p + i + 1)
  | none => (none, max p data.length)

/-- The raw slice taken by `_get_lines` with `rows = n` from position `pos`,
with skipped rows (`skipfunc(i + self.pos)`) and then blank lines removed. -/
def sliceFiltered (start : Nat) : List Row → Nat → Nat → List Row
  | _, _, 0 => []
  | [], _, _ => []
  | r :: rs, pos, n + 1 =>
    (if !inSkip start pos && lineKept r then [r] else []) ++
      sliceFiltered start rs (pos + 1) n

/-- Counter lookup in `dedup_names` (`defaultdict(int)`). -/
def cGet (m : List (String × Nat)) (k : String) : Nat :=
  ((m.find? (fun p => p.1 == k)).map Prod.snd).getD 0

/-- Counter update in `dedup_names`. -/
def cSet (m : List (String × Nat)) (k : String) (v : Nat) : List (String × Nat) :=
  match m with
  | [] => [(k, v)]
  | p :: ps => if p.1 == k then (k, v) :: ps else p :: cSet ps k v

/-- The inner `while cur_count > 0` loop of `pandas.io.common.dedup_names`:
rename `col` to `col.cur_count` until the name is fresh.  The fuel is an upper
bound on the iterations actually possible (each step follows an existing
counter entry under a strictly longer name). -/
def dedupStep : Nat → String → List (String × Nat) → String × List (String × Nat)
  | 0, col, m => (col, m)
  | fuel + 1, col, m =>
    let c := cGet m col
    if c = 0 then (col, m)
    else dedupStep fuel (col ++ "." ++ toString c) (cSet m col (c + 1))

/-- The fold of `dedup_names` over the column names. -/
def dedupGo (fuel : Nat) : List String → List (String × Nat) → List String
  | [], _ => []
  | c :: cs, m =>
    let r := dedupStep fuel c m
    r.1 :: dedupGo fuel cs (cSet r.2 r.1 (cGet r.2 r.1 + 1))

/-- The deduplication `pandas.io.common.dedup_names` on a flat header. -/
def dedupNames (names : List String) : List String :=
  dedupGo (2 * names.length + 2) names []

/-- Empty header cells become `Unnamed: i` (`_infer_columns`). -/
def mangleUnnamed (hdr : Row) : List String :=
  hdr.enum.map (fun p => if p.2 = "" then "Unnamed: " ++ toString p.1 else p.2)

/-- The parse result: processed column names and the kept data lines. -/
structure ParsedFrame where
  columns : List String
  content : List Row
  deriving DecidableEq, Repr

/-- The `TextParser` run shared by the three `read_excel` calls of `app.py`
(`header=0`, `skiprows=range(1, start+1)`, optional `nrows`):

* empty data yields an empty frame (`if not data: DataFrame()`);
* the header is the first kept line, processed by `Unnamed:`-mangling and
  deduplication; no kept line at all raises `EmptyDataError` (`none` here);
* index inference (`_get_index_name`) buffers up to two data lines through
  `_next_line`;
* `read(nrows)` serves lines from the buffer first and slices the remaining
  raw rows after the buffered position, filtering skipped and blank lines
  from the slice only (`_get_lines`). -/
def parseSheet (data : List Row) (start : Nat) (nrows : Option Nat) : Option ParsedFrame :=
  if data.isEmpty then some ⟨[], []⟩
  else
    match nextLine data start 0 with
    | (none, _) => none
    | (some hdr, p1) =>
      let cols := dedupNames (mangleUnnamed hdr)
      let r1 := nextLine data start p1
      let r2 := nextLine data start r1.2
      let buf := ([r1.1, r2.1].filterMap id)
      let content :=
        match nrows with
        | some n =>
          if n ≤ buf.length then buf.take n
          else buf ++ sliceFiltered start (data.drop r2.2) r2.2 (n - buf.length)
        | none => buf ++ sliceFiltered start (data.drop r2.2) r2.2 (data.length - r2.2)
      some ⟨cols, content⟩

/-- The default `STR_NA_VALUES` of pandas: parsed string cells equal to one of
these become missing values (NaN). -/
def strNaValues : List String :=
  ["-1.#IND", "1.#QNAN", "1.#IND", "-1.#QNAN", "#N/A N/A", "#N/A", "N/A",
   "n/a", "NA", "<NA>", "#NA", "NULL", "null", "NaN", "-NaN", "nan", "-nan",
   "None", ""]

/-- Value conversion of one parsed cell: NA strings become absent (`none`).
Scalars are abstracted to their string rendering. -/
def toVal (s : String) : Option String := if s ∈ strNaValues then none else some s

/-- A record as produced by `df.to_dict(orient="records")`: the column names
zipped positionally with the row's converted values. -/
def recordOfRow (cols : List String) (r : Row) : List (String × Option String) :=
  cols.zip (r.map toVal)

/-- Python `int(s)` on a digit run after the first digit: underscores are
allowed as single separators between digits. -/
def pyDigitsVal : List Char → Nat → Option Nat
  | [], acc => some acc
  | '_' :: c :: cs, acc =>
    if c.isDigit then pyDigitsVal cs (acc * 10 + (c.toNat - 48)) else none
  | ['_'], _ => none
  | c :: cs, acc =>
    if c.isDigit then pyDigitsVal cs (acc * 10 + (c.toNat - 48)) else none

/-- Python `int(s)` on the part after an optional sign: at least one digit. -/
def pyIntCore : List Char → Option Nat
  | [] => none
  | c :: cs => if c.isDigit then pyDigitsVal cs (c.toNat - 48) else none

/-- Python `int(str)`: surrounding whitespace is stripped, an optional sign is
followed by digits with optional single underscore separators.  (Non-ASCII
digit forms are not modelled.) -/
def pyInt? (s : String) : Option Int :=
  match (pyStrip s).toList with
  | '+' :: rest => (pyIntCore rest).map Int.ofNat
  | '-' :: rest => (pyIntCore rest).map (fun n => -(n : Int))
  | cs => (pyIntCore cs).map Int.ofNat

/-- UTF-8 encoding of one scalar value, as byte values (Python
`str.encode('utf-8')`). -/
def utf8Bytes (c : Char) : List Nat :=
  let n := c.toNat
  if n < 0x80 then [n]
  else if n < 0x800 then [0xC0 + n / 64, 0x80 + n % 64]
  else if n < 0x10000 then
    [0xE0 + n / 4096, 0x80 + (n / 64) % 64, 0x80 + n % 64]
  else
    [0xF0 + n / 262144, 0x80 + (n / 4096) % 64, 0x80 + (n / 64) % 64,
     0x80 + n % 64]

/-- Bytes `urllib.parse.quote` leaves unescaped with the default `safe='/'`:
ASCII letters, digits, `_.-~` and `/`. -/
def quoteSafeByte (b : Nat) : Bool :=
  (0x41 ≤ b && b ≤ 0x5A) || (0x61 ≤ b && b ≤ 0x7A) ||
    (0x30 ≤ b && b ≤ 0x39) || b == 0x5F || b == 0x2E || b == 0x2D ||
    b == 0x7E || b == 0x2F

/-- One uppercase hex digit. -/
def hexDigitChar (n : Nat) : Char :=
  if n < 10 then Char.ofNat (48 + n) else Char.ofNat (55 + n)

/-- Python `urllib.parse.quote(s)` with the default `safe='/'`: percent-encode every
UTF-8 byte outside the safe set, uppercase hex. -/
def pyQuote (s : String) : String :=
  String.join ((s.toList.flatMap utf8Bytes).map (fun b =>
    if quoteSafeByte b then String.singleton (Char.ofNat b)
    else "%" ++ String.singleton (hexDigitChar (b / 16)) ++
      String.singleton (hexDigitChar (b % 16))))

/-- The fixed page size of the deployment (`PER_PAGE = 25`).  The model keeps
the page size as a parameter `perPage`; this constant is the deployed value. -/
def PER_PAGE : Nat := 25

/-- The bound `file_rows_needed` computed by pandas' `_calc_rows` for the windowed read:
`header=0`, `skiprows=range(1, start+1)` (gapless) and `nrows=perPage` make it
`1 + perPage + start`. -/
def pageRowsNeeded (perPage start : Nat) : Nat := 1 + perPage + start

/-- The row-count read of line 66:
`len(pd.read_excel(filepath, sheet_name=..., usecols=[0]))`.  `usecols`
selects columns only, so the length is the number of kept data lines of a
full parse. -/
def totalRead (sheet : SheetData) : Option Nat :=
  (parseSheet (getSheetData sheet none) 0 none).map (fun f => f.content.length)

/-- The windowed read of lines 74-80: `skiprows=range(1, start+1)`,
`nrows=perPage`. -/
def pageRead (perPage : Nat) (sheet : SheetData) (start : Nat) : Option ParsedFrame :=
  parseSheet (getSheetData sheet (some (pageRowsNeeded perPage start))) start (some perPage)

/-- The header-restoring read of line 83: `nrows=0` reads one raw row
(`file_rows_needed = 1`) and yields only column names. -/
def headerRead (sheet : SheetData) : Option (List String) :=
  (parseSheet (getSheetData sheet (some 1)) 0 (some 0)).map ParsedFrame.columns

/-- The successful outcome of the `try` block of lines 64-84. -/
structure PagePayload where
  total : Nat
  data : List (List (String × Option String))
  deriving DecidableEq, Repr

/-- Lines 64-84 for an existing sheet: the three reads; `none` models any
raised exception (handled by `except Exception` with a 500).  The
`df.columns = ...` assignment of line 83 raises when the page frame and the
header read disagree on the number of columns; otherwise the records are
keyed by the header read's column names. -/
def tryLoad (perPage : Nat) (sheet : SheetData) (start : Nat) : Option PagePayload :=
  match totalRead sheet, pageRead perPage sheet start, headerRead sheet with
  | some total, some pf, some cols =>
    if cols.length = pf.columns.length then
      some ⟨total, pf.content.map (recordOfRow cols)⟩
    else none
  | _, _, _ => none

/-- The JSON body produced by `jsonify` on line 97, before serialization.
`next_page = none` is Python `None`: the key is still emitted (as JSON
`null`). -/
structure PageBody where
  file : String
  sheet : String
  page : Int
  per_page : Nat
  total_rows : Nat
  has_more : Bool
  next_page : Option String
  data : List (List (String × Option String))
  deriving DecidableEq, Repr

/-- An HTTP outcome of the route `/file/<filename>/sheet/<sheet_name>`. -/
inductive HttpResult where
  | ok (body : PageBody)
  | notFound (msg : String)
  | badRequest (msg : String)
  | serverError (msg : String)
  deriving DecidableEq, Repr

/-- The `next_page` URL of line 95. -/
def nextPageUrl (filename sheetName : String) (page : Int) : String :=
  "/file/" ++ pyQuote filename ++ "/sheet/" ++ pyQuote sheetName ++
    "?page=" ++ toString (page + 1)

/-- Python `int(request.args.get("page", 1))`: an absent parameter defaults to the
integer 1, a present one goes through Python `int()`. -/
def parsePageArg (pageArg : Option String) : Option Int :=
  match pageArg with
  | none => some 1
  | some s => pyInt? s

/-- The route handler `get_sheet_data` of `app.py` (lines 50-106), after
authentication: file existence check (404), page validation (400), the
pandas reads (any failure: 500), then the JSON body. -/
def get_sheet_data (fs : FileSystem) (perPage : Nat) (filename sheetName : String)
    (pageArg : Option String) : HttpResult :=
  match fs.lookup filename with
  | none => .notFound "File not found"
  | some wb =>
    match parsePageArg pageArg with
    | none => .badRequest "Invalid page value"
    | some page =>
      if page ≤ 0 then .badRequest "Invalid page value"
      else
        match wb.lookup sheetName with
        | none =>
          .serverError ("Could not load sheet: Worksheet named '"
            ++ sheetName ++ "' not found")
        | some sheet =>
          let start := (page.toNat - 1) * perPage
          match tryLoad perPage sheet start with
          | none => .serverError "Could not load sheet: parse error"
          | some pl =>
            let hasMore := decide (start + perPage < pl.total)
            .ok { file := filename, sheet := sheetName, page := page,
                  per_page := perPage, total_rows := pl.total,
                  has_more := hasMore,
                  next_page :=
                    if hasMore then some (nextPageUrl filename sheetName page)
                    else none,
                  data := pl.data }

/-- A JSON value, for the serialized response body. -/
inductive Jval where
  | null
  | s (v : String)
  | i (v : Int)
  | b (v : Bool)
  | arr (l : List Jval)
  | obj (l : List (String × Jval))

/-- One record serialized: absent values (NaN) become JSON null via
`to_dict` and the JSON encoder. -/
def recordJson (rec : List (String × Option String)) : Jval :=
  .obj (rec.map (fun p => (p.1, match p.2 with | none => Jval.null | some v => Jval.s v)))

/-- The serialized fields of the body: `jsonify` emits every key of the dict
literal of lines 97-106, with Python `None` as JSON `null`. -/
def bodyFields (b : PageBody) : List (String × Jval) :=
  [("file", .s b.file), ("sheet", .s b.sheet), ("page", .i b.page),
   ("per_page", .i b.per_page), ("total_rows", .i b.total_rows),
   ("has_more", .b b.has_more),
   ("next_page", match b.next_page with | none => Jval.null | some u => Jval.s u),
   ("data", .arr (b.data.map recordJson))]

/-- Projection: the body of a 200 response. -/
def HttpResult.body? : HttpResult → Option PageBody
  | .ok b => some b
  | _ => none

/-- Projection: `total_rows` of a 200 response. -/
def totalRowsOf (r : HttpResult) : Option Nat := r.body?.map PageBody.total_rows

/-- Projection: `has_more` of a 200 response. -/
def hasMoreOf (r : HttpResult) : Option Bool := r.body?.map PageBody.has_more

/-- Projection: `next_page` of a 200 response. -/
def nextPageOf (r : HttpResult) : Option (Option String) := r.body?.map PageBody.next_page

/-- Projection: `data` of a 200 response. -/
def dataOf (r : HttpResult) : Option (List (List (String × Option String))) :=
  r.body?.map PageBody.data

/-- Projection: `page` of a 200 response. -/
def pageOf (r : HttpResult) : Option Int := r.body?.map PageBody.page

/-! ### Derived notions used to state the (amended) properties -/

/-- A sheet is well-formed for the clean-pagination regime: it has a header
row of trimmed width at least two, no data row is wider (after trimming
trailing empty cells) than the header, and the last data row is not blank. -/
def wfSheetB (sheet : SheetData) : Bool :=
  match sheet with
  | [] => false
  | hdr :: rows =>
    decide (2 ≤ (trimTrailingEmpty hdr).length) &&
    rows.all (fun r =>
      decide ((trimTrailingEmpty r).length ≤ (trimTrailingEmpty hdr).length)) &&
    (match rows.getLast? with
     | none => true
     | some r => decide (trimTrailingEmpty r ≠ []))

/-- The column names a well-formed sheet's records are keyed by. -/
def sheetCols (hdr : Row) : List String :=
  dedupNames (mangleUnnamed (trimTrailingEmpty hdr))

/-- The data rows the windowed read of page window `[start, start + pp)`
yields for a well-formed sheet: the raw window rows, trailing-trimmed and
padded to the header width — note that the trailing blank rows of the read
file portion are trimmed away while interior blank rows survive. -/
def pageWindowRows (hdr : Row) (rows : List Row) (start pp : Nat) : List Row :=
  ((dropTrailingBlank ((rows.take (pp + start)).map trimTrailingEmpty)).map
    (padTo (trimTrailingEmpty hdr).length)).drop start

/-- The records returned for page window `[start, start + pp)` of a
well-formed sheet. -/
def pageRecords (hdr : Row) (rows : List Row) (start pp : Nat) :
    List (List (String × Option String)) :=
  (pageWindowRows hdr rows start pp).map (recordOfRow (sheetCols hdr))

/-! ### Helper lemmas -/

lemma padTo_length (w : Nat) (r : Row) : (padTo w r).length = max r.length w := by
  simp [padTo]
  omega

lemma padTo_self (w : Nat) (r : Row) (h : r.length = w) : padTo w r = r := by
  simp [padTo, h]

lemma lineKept_of_two (r : Row) (h : 2 ≤ r.length) : lineKept r = true := by
  simp [lineKept]
  omega

lemma trimTrailingEmpty_ne_nil (r : Row) (h : 2 ≤ (trimTrailingEmpty r).length) :
    trimTrailingEmpty r ≠ [] := by
  intro hh
  rw [hh] at h
  simp at h

lemma dropTrailingBlank_cons (r : Row) (rs : List Row) :
    dropTrailingBlank (r :: rs) =
      match dropTrailingBlank rs with
      | [] => if r = [] then [] else [r]
      | t => r :: t := rfl

lemma dropTrailingBlank_cons_ne (r : Row) (rs : List Row) (h : r ≠ []) :
    dropTrailingBlank (r :: rs) = r :: dropTrailingBlank rs := by
  cases hd : dropTrailingBlank rs with
  | nil => simp [dropTrailingBlank, hd, h]
  | cons t ts => simp [dropTrailingBlank, hd]

lemma dropTrailingBlank_mem {l : List Row} {x : Row} (h : x ∈ dropTrailingBlank l) :
    x ∈ l := by
  induction l with
  | nil => simp [dropTrailingBlank] at h
  | cons r rs ih =>
    cases hd : dropTrailingBlank rs with
    | nil =>
      simp only [dropTrailingBlank, hd] at h
      by_cases hr : r = []
      · simp [hr] at h
      · simp [hr] at h
        simp [h]
    | cons t ts =>
      simp only [dropTrailingBlank, hd] at h
      rcases List.mem_cons.mp h with h | h
      · simp [h]
      · exact List.mem_cons_of_mem _ (ih (hd ▸ h))

lemma dropTrailingBlank_length_le (l : List Row) :
    (dropTrailingBlank l).length ≤ l.length := by
  induction l with
  | nil => simp [dropTrailingBlank]
  | cons r rs ih =>
    cases hd : dropTrailingBlank rs with
    | nil =>
      by_cases hr : r = [] <;> simp [dropTrailingBlank, hd, hr]
    | cons t ts =>
      rw [hd] at ih
      simp only [dropTrailingBlank, hd, List.length_cons]
      simpa using ih

lemma dropTrailingBlank_eq_self (l : List Row)
    (h : ∀ x, l.getLast? = some x → x ≠ []) : dropTrailingBlank l = l := by
  induction l with
  | nil => rfl
  | cons r rs ih =>
    cases rs with
    | nil =>
      have hr : r ≠ [] := h r rfl
      simp [dropTrailingBlank, hr]
    | cons a as =>
      have hrs : dropTrailingBlank (a :: as) = a :: as := by
        apply ih
        intro x hx
        exact h x (by simpa [List.getLast?_cons_cons] using hx)
      rw [dropTrailingBlank_cons, hrs]

lemma maxWidth_cons (r : Row) (l : List Row) :
    maxWidth (r :: l) = max r.length (maxWidth l) := rfl

lemma maxWidth_le (l : List Row) (w : Nat) (h : ∀ r ∈ l, r.length ≤ w) :
    maxWidth l ≤ w := by
  induction l with
  | nil => simp [maxWidth]
  | cons r rs ih =>
    rw [maxWidth_cons]
    exact max_le (h r (by simp)) (ih (fun x hx => h x (by simp [hx])))

lemma sheetNorm_wf (hdr : Row) (rows : List Row)
    (h2 : 2 ≤ (trimTrailingEmpty hdr).length)
    (hle : ∀ r ∈ rows,
      (trimTrailingEmpty r).length ≤ (trimTrailingEmpty hdr).length) :
    sheetNorm (hdr :: rows) =
      trimTrailingEmpty hdr ::
        (dropTrailingBlank (rows.map trimTrailingEmpty)).map
          (padTo (trimTrailingEmpty hdr).length) := by
  have hne : trimTrailingEmpty hdr ≠ [] := trimTrailingEmpty_ne_nil hdr h2
  have hdrop : dropTrailingBlank
        (trimTrailingEmpty hdr :: rows.map trimTrailingEmpty) =
      trimTrailingEmpty hdr :: dropTrailingBlank (rows.map trimTrailingEmpty) :=
    dropTrailingBlank_cons_ne _ _ hne
  have hmax : maxWidth (trimTrailingEmpty hdr ::
      dropTrailingBlank (rows.map trimTrailingEmpty)) =
      (trimTrailingEmpty hdr).length := by
    rw [maxWidth_cons]
    have hle2 : maxWidth (dropTrailingBlank (rows.map trimTrailingEmpty)) ≤
        (trimTrailingEmpty hdr).length := by
      apply maxWidth_le
      intro r hr
      have hr2 : r ∈ rows.map trimTrailingEmpty := dropTrailingBlank_mem hr
      rcases List.mem_map.mp hr2 with ⟨x, hx, rfl⟩
      exact hle x hx
    omega
  unfold sheetNorm
  simp only [List.map_cons, hdrop, hmax]
  rw [padTo_self _ _ rfl]

lemma skipAdvance_zero (start : Nat) : skipAdvance start 0 = 0 := by
  simp [skipAdvance]

lemma skipAdvance_one (start : Nat) : skipAdvance start 1 = start + 1 := by
  simp only [skipAdvance]
  split <;> omega

lemma skipAdvance_gt (start pos : Nat) (h : start < pos) :
    skipAdvance start pos = pos := by
  simp only [skipAdvance]
  split <;> omega

lemma findKeptIdx_allKept (l : List Row) (h : ∀ r ∈ l, lineKept r = true) :
    findKeptIdx l = l.head?.map (fun r => (r, 0)) := by
  cases l with
  | nil => simp [findKeptIdx]
  | cons r rs => simp [findKeptIdx, h r (by simp)]

lemma sliceFiltered_allKept (start : Nat) (l : List Row) (pos n : Nat)
    (hpos : start < pos) (h : ∀ r ∈ l, lineKept r = true) :
    sliceFiltered start l pos n = l.take n := by
  induction l generalizing pos n with
  | nil => cases n <;> simp [sliceFiltered]
  | cons r rs ih =>
    cases n with
    | zero => simp [sliceFiltered]
    | succ m =>
      have hskip : inSkip start pos = false := by
        simp [inSkip]
        omega
      simp only [sliceFiltered, hskip, h r (by simp), Bool.not_false,
        Bool.true_and, if_pos]
      rw [ih (pos + 1) m (by omega) (fun x hx => h x (by simp [hx]))]
      simp

lemma sliceFiltered_nil (start pos n : Nat) : sliceFiltered start [] pos n = [] := by
  cases n <;> simp [sliceFiltered]

lemma nextLine_head (H : Row) (D : List Row) (start : Nat) (hH : lineKept H = true) :
    nextLine (H :: D) start 0 = (some H, 1) := by
  simp [nextLine, skipAdvance_zero, findKeptIdx, hH]

/-- Characterization of the windowed read on all-kept lines: from
position `1` the parser lands on the raw window start. -/
lemma parseSheet_window (H : Row) (D : List Row) (start n : Nat)
    (hH : lineKept H = true) (hD : ∀ r ∈ D, lineKept r = true) (hn : 1 ≤ n) :
    parseSheet (H :: D) start (some n) =
      some ⟨dedupNames (mangleUnnamed H), (D.drop start).take n⟩ := by
  have hdrop1 : (H :: D).drop (start + 1) = D.drop start := List.drop_succ_cons ..
  have hdrop2 : (H :: D).drop (start + 2) = D.drop (start + 1) := List.drop_succ_cons ..
  have hdrop3 : (H :: D).drop (start + 3) = D.drop (start + 2) := List.drop_succ_cons ..
  have hDs1 : D.drop (start + 1) = (D.drop start).drop 1 := by
    rw [List.drop_drop]
  have hDs2 : D.drop (start + 2) = (D.drop start).drop 2 := by
    rw [List.drop_drop]
  cases hwin : D.drop start with
  | nil =>
    have hlen : D.length ≤ start := by
      have := congrArg List.length hwin
      simp at this
      omega
    have h1 : nextLine (H :: D) start 1 = (none, start + 1) := by
      simp only [nextLine, skipAdvance_one, hdrop1, hwin, findKeptIdx]
      simp
      omega
    have h2 : nextLine (H :: D) start (start + 1) = (none, start + 1) := by
      simp only [nextLine, skipAdvance_gt start (start + 1) (by omega), hdrop1,
        hwin, findKeptIdx]
      simp
      omega
    simp only [parseSheet, List.isEmpty_cons, Bool.false_eq_true, if_false,
      nextLine_head H D start hH, h1, h2, hdrop1, hwin, sliceFiltered_nil,
      List.filterMap, List.take_nil]
    simp [Nat.le_zero, sliceFiltered_nil]
  | cons w0 tl0 =>
    have hw0 : w0 ∈ D := (List.drop_sublist start D).subset (hwin ▸ List.mem_cons_self _ _)
    have h1 : nextLine (H :: D) start 1 = (some w0, start + 2) := by
      simp only [nextLine, skipAdvance_one, hdrop1, hwin, findKeptIdx, hD w0 hw0]
      simp
    cases htl : tl0 with
    | nil =>
      have hlen : D.length = start + 1 := by
        have := congrArg List.length hwin
        simp [htl, List.length_drop] at this
        omega
      have h2 : nextLine (H :: D) start (start + 2) = (none, start + 2) := by
        simp only [nextLine, skipAdvance_gt start (start + 2) (by omega), hdrop2,
          hDs1, hwin, htl, List.drop_succ_cons, List.drop_nil, findKeptIdx]
        simp
        omega
      simp only [parseSheet, List.isEmpty_cons, Bool.false_eq_true, if_false,
        nextLine_head H D start hH, h1, h2, hdrop2, hDs1, hwin, htl]
      simp only [List.drop_succ_cons, List.drop_nil, sliceFiltered_nil]
      simp [List.filterMap]
      omega
    | cons w1 tl1 =>
      have hw1 : w1 ∈ D := by
        apply (List.drop_sublist start D).subset
        rw [hwin, htl]
        simp
      have h2 : nextLine (H :: D) start (start + 2) = (some w1, start + 3) := by
        simp only [nextLine, skipAdvance_gt start (start + 2) (by omega), hdrop2,
          hDs1, hwin, htl, List.drop_succ_cons, findKeptIdx, hD w1 hw1]
        simp
      have htl1 : (H :: D).drop (start + 3) = tl1 := by
        rw [hdrop3, hDs2, hwin, htl]
        rfl
      have hslice : sliceFiltered start tl1 (start + 3) (n - 2) = tl1.take (n - 2) := by
        apply sliceFiltered_allKept _ _ _ _ (by omega)
        intro r hr
        apply hD
        apply (List.drop_sublist start D).subset
        rw [hwin, htl]
        simp [hr]
      simp only [parseSheet, List.isEmpty_cons, Bool.false_eq_true, if_false,
        nextLine_head H D start hH, h1, h2, htl1, hslice]
      simp only [List.filterMap_cons, List.filterMap_nil, id_eq]
      simp only [Option.some.injEq, ParsedFrame.mk.injEq, true_and]
      by_cases hn2 : n ≤ 2
      · rw [if_pos (by simpa using hn2)]
        interval_cases n
        · simp
        · simp
      · rw [if_neg (by simpa using hn2)]
        rw [show ([w0, w1] : List Row).length = 2 from rfl, hslice]
        have h3 : n = (n - 2) + 2 := by omega
        conv_rhs => rw [h3]
        simp [List.take_succ_cons]

/-- The full read (`nrows=None`): every kept data line is returned. -/
lemma parseSheet_all (H : Row) (D : List Row)
    (hH : lineKept H = true) (hD : ∀ r ∈ D, lineKept r = true) :
    parseSheet (H :: D) 0 none = some ⟨dedupNames (mangleUnnamed H), D⟩ := by
  cases D with
  | nil =>
    have h1 : nextLine [H] 0 1 = (none, 1) := by
      simp [nextLine, skipAdvance_one, findKeptIdx]
    simp only [parseSheet, List.isEmpty_cons, Bool.false_eq_true, if_false,
      nextLine_head H [] 0 hH, h1]
    simp [sliceFiltered_nil, List.filterMap]
  | cons w0 tl0 =>
    have hw0 : lineKept w0 = true := hD w0 (by simp)
    have h1 : nextLine (H :: w0 :: tl0) 0 1 = (some w0, 2) := by
      simp [nextLine, skipAdvance_one, findKeptIdx, hw0]
    cases tl0 with
    | nil =>
      have h2 : nextLine [H, w0] 0 2 = (none, 2) := by
        simp [nextLine, skipAdvance_gt 0 2 (by omega), findKeptIdx]
      simp only [parseSheet, List.isEmpty_cons, Bool.false_eq_true, if_false,
        nextLine_head H [w0] 0 hH, h1, h2]
      simp [sliceFiltered_nil, List.filterMap]
    | cons w1 tl1 =>
      have hw1 : lineKept w1 = true := hD w1 (by simp)
      have h2 : nextLine (H :: w0 :: w1 :: tl1) 0 2 = (some w1, 3) := by
        simp [nextLine, skipAdvance_gt 0 2 (by omega), findKeptIdx, hw1]
      have hslice : sliceFiltered 0 tl1 3 ((H :: w0 :: w1 :: tl1).length - 3) =
          tl1 := by
        rw [sliceFiltered_allKept 0 tl1 3 _ (by omega)]
        · simp
        · intro r hr
          exact hD r (by simp [hr])
      simp only [parseSheet, List.isEmpty_cons, Bool.false_eq_true, if_false,
        nextLine_head H (w0 :: w1 :: tl1) 0 hH, h1, h2]
      simp only [List.filterMap_cons, List.filterMap_nil, id_eq,
        List.drop_succ_cons, List.drop_zero]
      rw [hslice]
      simp

/-- The header-only read (`nrows=0` on a one-row file portion). -/
lemma parseSheet_zero (H : Row) (hH : lineKept H = true) :
    parseSheet [H] 0 (some 0) = some ⟨dedupNames (mangleUnnamed H), []⟩ := by
  have h1 : nextLine [H] 0 1 = (none, 1) := by
    simp [nextLine, skipAdvance_one, findKeptIdx]
  simp only [parseSheet, List.isEmpty_cons, Bool.false_eq_true, if_false,
    nextLine_head H [] 0 hH, h1]
  simp [List.filterMap]

lemma wfSheetB_unpack (hdr : Row) (rows : List Row)
    (h : wfSheetB (hdr :: rows) = true) :
    2 ≤ (trimTrailingEmpty hdr).length ∧
      (∀ r ∈ rows,
        (trimTrailingEmpty r).length ≤ (trimTrailingEmpty hdr).length) ∧
      (∀ x, rows.getLast? = some x → trimTrailingEmpty x ≠ []) := by
  simp only [wfSheetB, Bool.and_eq_true, decide_eq_true_eq, List.all_eq_true] at h
  obtain ⟨⟨h2, hle⟩, hlast⟩ := h
  refine ⟨h2, fun r hr => by simpa using hle r hr, ?_⟩
  intro x hx
  rw [hx] at hlast
  simpa using hlast

lemma kept_of_wf (hdr : Row) (rows' : List Row)
    (h2 : 2 ≤ (trimTrailingEmpty hdr).length)
    (hle : ∀ r ∈ rows',
      (trimTrailingEmpty r).length ≤ (trimTrailingEmpty hdr).length) :
    ∀ r ∈ (dropTrailingBlank (rows'.map trimTrailingEmpty)).map
        (padTo (trimTrailingEmpty hdr).length), lineKept r = true := by
  intro r hr
  rcases List.mem_map.mp hr with ⟨x, hx, rfl⟩
  rcases List.mem_map.mp (dropTrailingBlank_mem hx) with ⟨y, hy, rfl⟩
  apply lineKept_of_two
  rw [padTo_length]
  have := hle y hy
  omega

lemma getSheetData_page_wf (hdr : Row) (rows : List Row) (pp start : Nat)
    (h2 : 2 ≤ (trimTrailingEmpty hdr).length)
    (hle : ∀ r ∈ rows,
      (trimTrailingEmpty r).length ≤ (trimTrailingEmpty hdr).length) :
    getSheetData (hdr :: rows) (some (pageRowsNeeded pp start)) =
      trimTrailingEmpty hdr ::
        (dropTrailingBlank ((rows.take (pp + start)).map trimTrailingEmpty)).map
          (padTo (trimTrailingEmpty hdr).length) := by
  have hn : pageRowsNeeded pp start = (pp + start) + 1 := by
    unfold pageRowsNeeded
    omega
  rw [getSheetData, hn, List.take_succ_cons]
  exact sheetNorm_wf hdr _ h2 (fun r hr => hle r (List.take_subset _ _ hr))

lemma getSheetData_full_wf (hdr : Row) (rows : List Row)
    (h2 : 2 ≤ (trimTrailingEmpty hdr).length)
    (hle : ∀ r ∈ rows,
      (trimTrailingEmpty r).length ≤ (trimTrailingEmpty hdr).length)
    (hlast : ∀ x, rows.getLast? = some x → trimTrailingEmpty x ≠ []) :
    getSheetData (hdr :: rows) none =
      trimTrailingEmpty hdr ::
        (rows.map trimTrailingEmpty).map
          (padTo (trimTrailingEmpty hdr).length) := by
  rw [getSheetData, sheetNorm_wf hdr rows h2 hle,
    dropTrailingBlank_eq_self (rows.map trimTrailingEmpty)]
  intro x hx
  rw [List.getLast?_map] at hx
  cases hy : rows.getLast? with
  | none => rw [hy] at hx; simp at hx
  | some y =>
    rw [hy] at hx
    simp at hx
    rw [← hx]
    exact hlast y hy

lemma getSheetData_header_wf (hdr : Row) (rows : List Row)
    (h2 : 2 ≤ (trimTrailingEmpty hdr).length) :
    getSheetData (hdr :: rows) (some 1) = [trimTrailingEmpty hdr] := by
  rw [getSheetData, show (hdr :: rows).take 1 = [hdr] from rfl]
  have := sheetNorm_wf hdr [] h2 (by simp)
  simpa [dropTrailingBlank] using this

lemma totalRead_wf (hdr : Row) (rows : List Row)
    (hwf : wfSheetB (hdr :: rows) = true) :
    totalRead (hdr :: rows) = some rows.length := by
  obtain ⟨h2, hle, hlast⟩ := wfSheetB_unpack hdr rows hwf
  have hH : lineKept (trimTrailingEmpty hdr) = true := lineKept_of_two _ h2
  rw [totalRead, getSheetData_full_wf hdr rows h2 hle hlast,
    parseSheet_all _ _ hH]
  · simp
  · intro r hr
    apply kept_of_wf hdr rows h2 hle
    rw [dropTrailingBlank_eq_self]
    · exact hr
    · intro x hx
      rw [List.getLast?_map] at hx
      cases hy : rows.getLast? with
      | none => rw [hy] at hx; simp at hx
      | some y =>
        rw [hy] at hx
        simp at hx
        rw [← hx]
        exact hlast y hy

lemma headerRead_wf (hdr : Row) (rows : List Row)
    (h2 : 2 ≤ (trimTrailingEmpty hdr).length) :
    headerRead (hdr :: rows) = some (sheetCols hdr) := by
  rw [headerRead, getSheetData_header_wf hdr rows h2,
    parseSheet_zero _ (lineKept_of_two _ h2)]
  rfl

lemma pageRead_wf (hdr : Row) (rows : List Row) (pp start : Nat)
    (hpp : 1 ≤ pp) (h2 : 2 ≤ (trimTrailingEmpty hdr).length)
    (hle : ∀ r ∈ rows,
      (trimTrailingEmpty r).length ≤ (trimTrailingEmpty hdr).length) :
    pageRead pp (hdr :: rows) start =
      some ⟨sheetCols hdr, pageWindowRows hdr rows start pp⟩ := by
  have hH : lineKept (trimTrailingEmpty hdr) = true := lineKept_of_two _ h2
  have hkept := kept_of_wf hdr (rows.take (pp + start)) h2
    (fun r hr => hle r (List.take_subset _ _ hr))
  rw [pageRead, getSheetData_page_wf hdr rows pp start h2 hle,
    parseSheet_window _ _ start pp hH hkept hpp]
  have hlen : (((dropTrailingBlank ((rows.take (pp + start)).map
      trimTrailingEmpty)).map (padTo (trimTrailingEmpty hdr).length)).drop
        start).length ≤ pp := by
    have hb := dropTrailingBlank_length_le ((rows.take (pp + start)).map
      trimTrailingEmpty)
    have ht : ((rows.take (pp + start)).map trimTrailingEmpty).length ≤
        pp + start := by
      simp [List.length_take]
    simp only [List.length_drop, List.length_map]
    omega
  rw [List.take_of_length_le hlen]
  rfl

lemma tryLoad_wf (pp : Nat) (hdr : Row) (rows : List Row) (start : Nat)
    (hpp : 1 ≤ pp) (hwf : wfSheetB (hdr :: rows) = true) :
    tryLoad pp (hdr :: rows) start =
      some ⟨rows.length, pageRecords hdr rows start pp⟩ := by
  obtain ⟨h2, hle, hlast⟩ := wfSheetB_unpack hdr rows hwf
  rw [tryLoad, totalRead_wf hdr rows hwf, pageRead_wf hdr rows pp start hpp h2 hle,
    headerRead_wf hdr rows h2]
  simp [pageRecords]

/-- Full characterization of a request against a well-formed sheet. -/
lemma get_sheet_data_wf (fs : FileSystem) (pp : Nat) (f s : String)
    (args : Option String) (wb : Workbook) (hdr : Row) (rows : List Row)
    (page : Int) (hfs : fs.lookup f = some wb)
    (hwb : wb.lookup s = some (hdr :: rows))
    (hpage : parsePageArg args = some page)
    (hpos : 0 < page) (hpp : 1 ≤ pp) (hwf : wfSheetB (hdr :: rows) = true) :
    get_sheet_data fs pp f s args = .ok
      { file := f, sheet := s, page := page, per_page := pp,
        total_rows := rows.length,
        has_more := decide ((page.toNat - 1) * pp + pp < rows.length),
        next_page := if decide ((page.toNat - 1) * pp + pp < rows.length) = true
          then some (nextPageUrl f s page) else none,
        data := pageRecords hdr rows ((page.toNat - 1) * pp) pp } := by
  simp only [get_sheet_data, hfs, hpage, hwb,
    tryLoad_wf pp hdr rows ((page.toNat - 1) * pp) hpp hwf]
  rw [if_neg (by omega)]

/-- Inversion of a 200 response: the shape every OK body has. -/
lemma get_sheet_data_ok (fs : FileSystem) (pp : Nat) (f s : String)
    (args : Option String) (b : PageBody)
    (h : get_sheet_data fs pp f s args = .ok b) :
    ∃ wb sheet pl, fs.lookup f = some wb ∧
      parsePageArg args = some b.page ∧
      0 < b.page ∧ wb.lookup s = some sheet ∧
      tryLoad pp sheet ((b.page.toNat - 1) * pp) = some pl ∧
      b.file = f ∧ b.sheet = s ∧ b.per_page = pp ∧ b.total_rows = pl.total ∧
      b.has_more = decide ((b.page.toNat - 1) * pp + pp < pl.total) ∧
      b.next_page = (if b.has_more then some (nextPageUrl f s b.page) else none) ∧
      b.data = pl.data := by
  simp only [get_sheet_data] at h
  cases hfs : fs.lookup f with
  | none => simp only [hfs] at h; simp at h
  | some wb =>
    simp only [hfs] at h
    cases hpg : parsePageArg args with
    | none => simp only [hpg] at h; simp at h
    | some page =>
      simp only [hpg] at h
      by_cases hpos : page ≤ 0
      · rw [if_pos hpos] at h
        simp at h
      · rw [if_neg hpos] at h
        cases hwb : wb.lookup s with
        | none => simp only [hwb] at h; simp at h
        | some sheet =>
          simp only [hwb] at h
          cases htl : tryLoad pp sheet ((page.toNat - 1) * pp) with
          | none => simp only [htl] at h; simp at h
          | some pl =>
            simp only [htl, HttpResult.ok.injEq] at h
            subst h
            exact ⟨wb, sheet, pl, rfl, rfl, (show (0 : Int) < page by omega),
              hwb, htl, rfl, rfl, rfl, rfl, rfl, rfl, rfl⟩

/-- Number of pages a pagination walk visits: the first page whose `has_more`
is false is page `pagesCount total pp` (at least one page is always
visited). -/
def pagesCount (total pp : Nat) : Nat := max 1 ((total + pp - 1) / pp)

lemma lt_div_add_one_mul (a b : Nat) (hb : 0 < b) : a < (a / b + 1) * b := by
  have h2 := Nat.mod_lt a hb
  calc a = b * (a / b) + a % b := (Nat.div_add_mod a b).symm
  _ < b * (a / b) + b := by omega
  _ = (a / b + 1) * b := by ring

lemma pagesCount_mul_ge (total pp : Nat) (hpp : 1 ≤ pp) :
    total ≤ pagesCount total pp * pp := by
  unfold pagesCount
  rcases Nat.eq_zero_or_pos total with rfl | htot
  · simp
  · have hq1 : 1 ≤ (total + pp - 1) / pp := by
      rw [Nat.le_div_iff_mul_le (by omega : 0 < pp)]
      omega
    rw [max_eq_right hq1]
    have h1 : total + pp - 1 < ((total + pp - 1) / pp + 1) * pp :=
      lt_div_add_one_mul _ _ (by omega)
    have h2 : ((total + pp - 1) / pp + 1) * pp =
        ((total + pp - 1) / pp) * pp + pp := by ring
    omega

lemma lt_pagesCount_iff (total pp i : Nat) (hpp : 1 ≤ pp) (hi : 1 ≤ i) :
    i * pp < total ↔ i < pagesCount total pp := by
  rcases Nat.eq_zero_or_pos total with rfl | htot
  · simp only [pagesCount]
    constructor
    · omega
    · intro h
      have : (0 + pp - 1) / pp = 0 := Nat.div_eq_of_lt (by omega)
      omega
  · have hq1 : 1 ≤ (total + pp - 1) / pp := by
      rw [Nat.le_div_iff_mul_le (by omega : 0 < pp)]
      omega
    have hmax : pagesCount total pp = (total + pp - 1) / pp := by
      unfold pagesCount
      omega
    rw [hmax]
    constructor
    · intro h
      by_contra hcontra
      have hge : (total + pp - 1) / pp ≤ i := by omega
      have := Nat.mul_le_mul_right pp hge
      have := pagesCount_mul_ge total pp hpp
      rw [hmax] at this
      omega
    · intro h
      have : i + 1 ≤ (total + pp - 1) / pp := by omega
      rw [Nat.le_div_iff_mul_le (by omega : 0 < pp)] at this
      have hexp : (i + 1) * pp = i * pp + pp := by ring
      omega

lemma chunks_concat {α : Type} (l : List α) (pp k : Nat) :
    (List.range k).flatMap (fun i => (l.drop (i * pp)).take pp) =
      l.take (k * pp) := by
  induction k with
  | zero => simp
  | succ m ih =>
    rw [List.range_succ, List.flatMap_append, ih]
    have : (m + 1) * pp = m * pp + pp := by ring
    rw [this, List.take_add]
    simp

lemma tryLoad_total (pp : Nat) (sheet : SheetData) (start : Nat)
    (pl : PagePayload) (h : tryLoad pp sheet start = some pl) :
    totalRead sheet = some pl.total := by
  unfold tryLoad at h
  cases h1 : totalRead sheet with
  | none => simp only [h1] at h; simp at h
  | some t =>
    simp only [h1] at h
    cases h2 : pageRead pp sheet start with
    | none => simp only [h2] at h; simp at h
    | some pf =>
      simp only [h2] at h
      cases h3 : headerRead sheet with
      | none => simp only [h3] at h; simp at h
      | some cols =>
        simp only [h3] at h
        by_cases hc : cols.length = pf.columns.length
        · rw [if_pos hc] at h
          simp only [Option.some.injEq] at h
          rw [← h]
        · rw [if_neg hc] at h
          simp at h

lemma dedupGo_length (fuel : Nat) (names : List String)
    (m : List (String × Nat)) : (dedupGo fuel names m).length = names.length := by
  induction names generalizing m with
  | nil => rfl
  | cons c cs ih => simp [dedupGo, ih]

lemma dedupNames_length (names : List String) :
    (dedupNames names).length = names.length := dedupGo_length _ _ _

lemma mangleUnnamed_length (hdr : Row) :
    (mangleUnnamed hdr).length = hdr.length := by
  simp [mangleUnnamed]

lemma sheetCols_length (hdr : Row) :
    (sheetCols hdr).length = (trimTrailingEmpty hdr).length := by
  rw [sheetCols, dedupNames_length, mangleUnnamed_length]

lemma zip_getElem? {α β : Type} (l1 : List α) (l2 : List β) (i : Nat) (a : α)
    (b : β) (h1 : l1[i]? = some a) (h2 : l2[i]? = some b) :
    (l1.zip l2)[i]? = some (a, b) := by
  induction l1 generalizing l2 i with
  | nil => simp at h1
  | cons x xs ih =>
    cases l2 with
    | nil => simp at h2
    | cons y ys =>
      cases i with
      | zero =>
        simp at h1 h2
        simp [List.zip_cons_cons, h1, h2]
      | succ j =>
        simp at h1 h2
        simpa [List.zip_cons_cons] using ih ys j h1 h2

lemma padTo_getElem?_of_ge (w : Nat) (r : Row) (i : Nat) (hge : r.length ≤ i)
    (hlt : i < w) : (padTo w r)[i]? = some "" := by
  rw [padTo, List.getElem?_append_right hge, List.getElem?_replicate]
  rw [if_pos (by omega)]

lemma pageWindowRows_noBlank (hdr : Row) (rows : List Row) (start pp : Nat)
    (hnb : ∀ r ∈ rows, trimTrailingEmpty r ≠ []) :
    pageWindowRows hdr rows start pp =
      ((rows.drop start).take pp).map
        (fun r => padTo (trimTrailingEmpty hdr).length (trimTrailingEmpty r)) := by
  unfold pageWindowRows
  rw [dropTrailingBlank_eq_self]
  · rw [List.map_map, List.map_take, List.drop_take,
      show pp + start - start = pp from by omega, ← List.map_drop,
      ← List.map_take]
    rfl
  · intro x hx
    rw [List.getLast?_map] at hx
    cases hy : (rows.take (pp + start)).getLast? with
    | none => rw [hy] at hx; simp at hx
    | some y =>
      rw [hy] at hx
      simp at hx
      rw [← hx]
      exact hnb y (List.take_subset _ _ (List.mem_of_mem_getLast? hy))

lemma pageRecords_noBlank (hdr : Row) (rows : List Row) (start pp : Nat)
    (hnb : ∀ r ∈ rows, trimTrailingEmpty r ≠ []) :
    pageRecords hdr rows start pp =
      ((rows.drop start).take pp).map (fun r => recordOfRow (sheetCols hdr)
        (padTo (trimTrailingEmpty hdr).length (trimTrailingEmpty r))) := by
  rw [pageRecords, pageWindowRows_noBlank hdr rows start pp hnb, List.map_map]
  rfl

lemma toVal_empty : toVal "" = none := by decide

lemma nextPageJson_null_mem (b : PageBody) (h : b.next_page = none) :
    ("next_page", Jval.null) ∈ bodyFields b := by
  unfold bodyFields
  rw [h]
  exact List.mem_cons_of_mem _ (List.mem_cons_of_mem _ (List.mem_cons_of_mem _
    (List.mem_cons_of_mem _ (List.mem_cons_of_mem _ (List.mem_cons_of_mem _
      (List.mem_cons_self _ _))))))

/-! ### Concrete fixtures -/

/-- Two-column sheet with an interior blank row (the spec's own example
sheet). -/
def sheet4 : SheetData := [["Name", "Age"], ["Alice", "30"], ["", ""], ["Bob", "25"]]

/-- A data directory holding `sheet4`. -/
def fs4 : FileSystem := [("f.xlsx", [("S", sheet4)])]

/-- Single-column sheet with an interior blank row. -/
def sheetW1 : SheetData := [["A"], ["a"], [""], ["b"], ["c"]]

/-- A data directory holding `sheetW1`. -/
def fsW1 : FileSystem := [("w.xlsx", [("S", sheetW1)])]

/-- Two-column sheet whose last data row is blank. -/
def sheetTB : SheetData := [["A", "B"], ["a", "1"], ["", ""]]

/-- A data directory holding `sheetTB`. -/
def fsTB : FileSystem := [("t.xlsx", [("S", sheetTB)])]

/-- Well-formed blank-free two-column sheet with four data rows. -/
def sheetOK : SheetData :=
  [["Name", "Age"], ["Alice", "30"], ["Bob", "25"], ["Carol", "41"], ["Dave", "19"]]

/-- A data directory holding `sheetOK`. -/
def fsOK : FileSystem := [("d.xlsx", [("S", sheetOK)])]

/-- Sheet whose single data row is shorter than the header. -/
def sheetC8 : SheetData := [["Name", "Age"], ["Alice"]]

/-- A data directory holding `sheetC8`. -/
def fsC8 : FileSystem := [("m.xlsx", [("S", sheetC8)])]

/-! ### The claims -/

/-- C1 (counterexample): with pageSize 3 on `sheet4`, page 1 is the last page
(`has_more = false`), yet the concatenation of all returned Records contains
a record for the blank row (every field absent), so it is not the sequence of
non-blank data rows keyed by the header. -/
theorem C1_counterexample :
    hasMoreOf (get_sheet_data fs4 3 "f.xlsx" "S" (some "1")) = some false ∧
    dataOf (get_sheet_data fs4 3 "f.xlsx" "S" (some "1")) =
      some [[("Name", some "Alice"), ("Age", some "30")],
            [("Name", none), ("Age", none)],
            [("Name", some "Bob"), ("Age", some "25")]] ∧
    decide (([[("Name", some "Alice"), ("Age", some "30")],
      [("Name", none), ("Age", none)],
      [("Name", some "Bob"), ("Age", some "25")]] :
        List (List (String × Option String))) =
      [recordOfRow (sheetCols ["Name", "Age"])
        (padTo 2 (trimTrailingEmpty ["Alice", "30"])),
       recordOfRow (sheetCols ["Name", "Age"])
        (padTo 2 (trimTrailingEmpty ["Bob", "25"]))]) = false := by
  decide

/-- C1 (amended): for a well-formed sheet with no blank data rows, the
concatenation of the Records over pages `1..N` (where `N = pagesCount` is
exactly the first page reporting `has_more = false`) is the sequence of all
data rows, keyed by the processed header, in order, with no duplicates and no
omissions.  (The unamended claim fails only on blank rows: blank rows inside
a window are returned as all-absent records rather than dropped, and
single-column sheets drop blank lines from the count.) -/
theorem C1_amended (fs : FileSystem) (pp : Nat) (f s : String) (wb : Workbook)
    (hdr : Row) (rows : List Row) (pageArgs : Nat → Option String)
    (hfs : fs.lookup f = some wb) (hwb : wb.lookup s = some (hdr :: rows))
    (hpp : 1 ≤ pp) (hwf : wfSheetB (hdr :: rows) = true)
    (hnb : ∀ r ∈ rows, trimTrailingEmpty r ≠ [])
    (hargs : ∀ i : Nat, i < pagesCount rows.length pp →
      parsePageArg (pageArgs i) = some ((i : Int) + 1)) :
    (List.range (pagesCount rows.length pp)).flatMap (fun i =>
        (dataOf (get_sheet_data fs pp f s (pageArgs i))).getD []) =
      rows.map (fun r => recordOfRow (sheetCols hdr)
        (padTo (trimTrailingEmpty hdr).length (trimTrailingEmpty r))) ∧
    (∀ i : Nat, 1 ≤ i → i ≤ pagesCount rows.length pp →
      (hasMoreOf (get_sheet_data fs pp f s (pageArgs (i - 1))) = some true ↔
        i < pagesCount rows.length pp)) := by
  have hresp : ∀ i : Nat, i < pagesCount rows.length pp →
      get_sheet_data fs pp f s (pageArgs i) = .ok
        { file := f, sheet := s, page := (i : Int) + 1, per_page := pp,
          total_rows := rows.length,
          has_more := decide (i * pp + pp < rows.length),
          next_page := if decide (i * pp + pp < rows.length) = true
            then some (nextPageUrl f s ((i : Int) + 1)) else none,
          data := pageRecords hdr rows (i * pp) pp } := by
    intro i hi
    have h := get_sheet_data_wf fs pp f s (pageArgs i) wb hdr rows ((i : Int) + 1)
      hfs hwb (hargs i hi) (by omega) hpp hwf
    rw [show (((i : Int) + 1).toNat - 1) = i from by omega] at h
    exact h
  constructor
  · have hdata : ∀ i ∈ List.range (pagesCount rows.length pp),
        (dataOf (get_sheet_data fs pp f s (pageArgs i))).getD [] =
          ((rows.map (fun r => recordOfRow (sheetCols hdr)
            (padTo (trimTrailingEmpty hdr).length (trimTrailingEmpty r)))).drop
              (i * pp)).take pp := by
      intro i hi
      rw [hresp i (List.mem_range.mp hi)]
      simp only [dataOf, HttpResult.body?, Option.map, Option.getD]
      rw [pageRecords_noBlank hdr rows (i * pp) pp hnb, ← List.map_drop,
        ← List.map_take]
    calc (List.range (pagesCount rows.length pp)).flatMap (fun i =>
        (dataOf (get_sheet_data fs pp f s (pageArgs i))).getD [])
        = (List.range (pagesCount rows.length pp)).flatMap (fun i =>
            ((rows.map (fun r => recordOfRow (sheetCols hdr)
              (padTo (trimTrailingEmpty hdr).length
                (trimTrailingEmpty r)))).drop (i * pp)).take pp) :=
          List.flatMap_congr hdata
      _ = (rows.map (fun r => recordOfRow (sheetCols hdr)
            (padTo (trimTrailingEmpty hdr).length (trimTrailingEmpty r)))).take
              (pagesCount rows.length pp * pp) := chunks_concat _ pp _
      _ = rows.map (fun r => recordOfRow (sheetCols hdr)
            (padTo (trimTrailingEmpty hdr).length (trimTrailingEmpty r))) := by
          apply List.take_of_length_le
          rw [List.length_map]
          exact pagesCount_mul_ge rows.length pp hpp
  · intro i h1 h2
    have hi : i - 1 < pagesCount rows.length pp := by omega
    rw [hresp (i - 1) hi]
    simp only [hasMoreOf, HttpResult.body?, Option.map, Option.some.injEq]
    have hmul : (i - 1) * pp + pp = i * pp := by
      have h3 : i - 1 + 1 = i := by omega
      calc (i - 1) * pp + pp = ((i - 1) + 1) * pp := by ring
        _ = i * pp := by rw [h3]
    rw [hmul, decide_eq_true_iff]
    exact lt_pagesCount_iff rows.length pp i hpp h1

/-- C1 (witness): the amended reconstruction at `sheetOK`, pageSize 2,
pages 1..2. -/
theorem C1_witness :
    (List.range (pagesCount
        (List.length ([["Alice", "30"], ["Bob", "25"], ["Carol", "41"],
          ["Dave", "19"]] : List Row)) 2)).flatMap (fun i =>
      (dataOf (get_sheet_data fsOK 2 "d.xlsx" "S"
        (some (toString (i + 1))))).getD []) =
      ([["Alice", "30"], ["Bob", "25"], ["Carol", "41"],
        ["Dave", "19"]] : List Row).map (fun r =>
        recordOfRow (sheetCols ["Name", "Age"])
          (padTo (trimTrailingEmpty ["Name", "Age"]).length
            (trimTrailingEmpty r))) :=
  (C1_amended fsOK 2 "d.xlsx" "S" [("S", sheetOK)] ["Name", "Age"]
    [["Alice", "30"], ["Bob", "25"], ["Carol", "41"], ["Dave", "19"]]
    (fun j => some (toString (j + 1))) (by decide) (by decide) (by decide)
    (by decide) (by decide) (by decide)).1

/-- C2 (counterexample): `sheetW1` has four data rows after the header (one
of them blank, i.e. with an empty first cell), but the request reports
`total_rows = 3`: the parser's blank-line filter removes the blank row of
this single-column sheet from the count. -/
theorem C2_counterexample :
    totalRowsOf (get_sheet_data fsW1 25 "w.xlsx" "S" (some "1")) = some 3 ∧
    (sheetW1.drop 1).length = 4 := by
  decide

/-- C2 (amended): `total_rows` is identical across any two 200 responses for
the same file and sheet, whatever pages they request; and for a well-formed
sheet (multi-column, no over-wide rows, non-blank last row) it equals the
number of data rows after the header — including rows whose first cell is
empty.  (The unamended claim fails on single-column sheets, where blank rows
are not counted, and on trailing blank rows, which are trimmed.) -/
theorem C2_amended :
    (∀ (fs : FileSystem) (pp : Nat) (f s : String) (a1 a2 : Option String)
      (b1 b2 : PageBody), get_sheet_data fs pp f s a1 = .ok b1 →
      get_sheet_data fs pp f s a2 = .ok b2 → b1.total_rows = b2.total_rows) ∧
    (∀ (fs : FileSystem) (pp : Nat) (f s : String) (args : Option String)
      (wb : Workbook) (hdr : Row) (rows : List Row) (b : PageBody),
      fs.lookup f = some wb → wb.lookup s = some (hdr :: rows) →
      wfSheetB (hdr :: rows) = true →
      get_sheet_data fs pp f s args = .ok b → b.total_rows = rows.length) := by
  constructor
  · intro fs pp f s a1 a2 b1 b2 h1 h2
    obtain ⟨wb1, sheet1, pl1, hfs1, _, _, hwb1, htl1, _, _, _, ht1, _, _, _⟩ :=
      get_sheet_data_ok fs pp f s a1 b1 h1
    obtain ⟨wb2, sheet2, pl2, hfs2, _, _, hwb2, htl2, _, _, _, ht2, _, _, _⟩ :=
      get_sheet_data_ok fs pp f s a2 b2 h2
    rw [hfs1] at hfs2
    injection hfs2 with hw
    subst hw
    rw [hwb1] at hwb2
    injection hwb2 with hsheet
    subst hsheet
    have t1 := tryLoad_total _ _ _ _ htl1
    have t2 := tryLoad_total _ _ _ _ htl2
    rw [t1] at t2
    injection t2 with ht
    rw [ht1, ht2, ht]
  · intro fs pp f s args wb hdr rows b hfs hwb hwf h
    obtain ⟨wb1, sheet1, pl1, hfs1, _, _, hwb1, htl1, _, _, _, ht1, _, _, _⟩ :=
      get_sheet_data_ok fs pp f s args b h
    rw [hfs] at hfs1
    injection hfs1 with hw
    subst hw
    rw [hwb] at hwb1
    injection hwb1 with hsheet
    subst hsheet
    have t1 := tryLoad_total _ _ _ _ htl1
    rw [totalRead_wf hdr rows hwf] at t1
    injection t1 with ht
    rw [ht1, ← ht]

/-- Page-1 body returned for `sheetOK` at pageSize 2. -/
def bodyOK1 : PageBody :=
  { file := "d.xlsx", sheet := "S", page := 1, per_page := 2, total_rows := 4,
    has_more := true, next_page := some "/file/d.xlsx/sheet/S?page=2",
    data := [[("Name", some "Alice"), ("Age", some "30")],
             [("Name", some "Bob"), ("Age", some "25")]] }

/-- Page-2 body returned for `sheetOK` at pageSize 2. -/
def bodyOK2 : PageBody :=
  { file := "d.xlsx", sheet := "S", page := 2, per_page := 2, total_rows := 4,
    has_more := false, next_page := none,
    data := [[("Name", some "Carol"), ("Age", some "41")],
             [("Name", some "Dave"), ("Age", some "19")]] }

/-- C2 (witness): pages 1 and 2 of `sheetOK` report the same `total_rows`. -/
theorem C2_witness : bodyOK1.total_rows = bodyOK2.total_rows :=
  C2_amended.1 fsOK 2 "d.xlsx" "S" (some "1") (some "2") bodyOK1 bodyOK2
    (by decide) (by decide)

/-- C3 (counterexample): with pageSize 3 on `sheet4`, the blank row inside
page 1's window is not dropped from the returned Records — it is returned as
a record with every field absent — so the page's data is not the blank-
filtered window the claim describes. -/
theorem C3_counterexample :
    dataOf (get_sheet_data fs4 3 "f.xlsx" "S" (some "1")) =
      some [[("Name", some "Alice"), ("Age", some "30")],
            [("Name", none), ("Age", none)],
            [("Name", some "Bob"), ("Age", some "25")]] ∧
    decide ((some [[("Name", some "Alice"), ("Age", some "30")],
           [("Name", none), ("Age", none)],
           [("Name", some "Bob"), ("Age", some "25")]] :
      Option (List (List (String × Option String)))) =
      some [[("Name", some "Alice"), ("Age", some "30")],
            [("Name", some "Bob"), ("Age", some "25")]]) = false := by
  decide

/-- C3 (amended): for a well-formed sheet, a page's data is exactly the fixed
physical data-row window `[(page-1)*pageSize, page*pageSize)` materialized as
header-keyed records, except that the trailing run of blank rows at the end
of the scanned file portion is trimmed; interior blank rows consume window
slots and are returned as records with every field absent rather than being
dropped. -/
theorem C3_amended (fs : FileSystem) (pp : Nat) (f s : String)
    (args : Option String) (wb : Workbook) (hdr : Row) (rows : List Row)
    (page : Int) (hfs : fs.lookup f = some wb)
    (hwb : wb.lookup s = some (hdr :: rows))
    (hpage : parsePageArg args = some page)
    (hpos : 0 < page) (hpp : 1 ≤ pp) (hwf : wfSheetB (hdr :: rows) = true) :
    dataOf (get_sheet_data fs pp f s args) =
      some ((pageWindowRows hdr rows ((page.toNat - 1) * pp) pp).map
        (recordOfRow (sheetCols hdr))) := by
  rw [get_sheet_data_wf fs pp f s args wb hdr rows page hfs hwb hpage hpos
    hpp hwf]
  simp only [dataOf, HttpResult.body?, Option.map]
  rfl

/-- C3 (witness): the amended window characterization at `sheet4`,
pageSize 3, page 1. -/
theorem C3_witness :
    dataOf (get_sheet_data fs4 3 "f.xlsx" "S" (some "1")) =
      some ((pageWindowRows ["Name", "Age"]
          [["Alice", "30"], ["", ""], ["Bob", "25"]] (((1 : Int).toNat - 1) * 3)
          3).map (recordOfRow (sheetCols ["Name", "Age"]))) :=
  C3_amended fs4 3 "f.xlsx" "S" (some "1") [("S", sheet4)] ["Name", "Age"]
    [["Alice", "30"], ["", ""], ["Bob", "25"]] 1 (by decide) (by decide)
    (by decide) (by decide) (by decide) (by decide)

/-- C4 (counterexample): `sheetTB` has a physical data row (the blank row) at
data-row index 1, so a further non-empty physical-row window beyond page 1's
upper bound exists (pageSize 1), yet `has_more` is reported `false`:
`total_rows` counts rows only up to the last non-blank row, because the
reader trims trailing blank rows. -/
theorem C4_counterexample :
    hasMoreOf (get_sheet_data fsTB 1 "t.xlsx" "S" (some "1")) = some false ∧
    ((sheetTB.drop 1).drop 1).take 1 = [["", ""]] := by
  decide

/-- C4 (amended): on every 200 response, `has_more` is true iff
`page * pageSize < total_rows`, where `total_rows` is the parser's kept-row
count (trailing blank rows trimmed; for single-column sheets blank rows
dropped) — not the raw physical row count; and requesting a page whose
window lies entirely beyond the last data row of a well-formed sheet succeeds
with an empty `data` array, `has_more = false` and a null `next_page`. -/
theorem C4_amended :
    (∀ (fs : FileSystem) (pp : Nat) (f s : String) (args : Option String)
      (b : PageBody), get_sheet_data fs pp f s args = .ok b →
      b.has_more = decide (b.page.toNat * pp < b.total_rows)) ∧
    (∀ (fs : FileSystem) (pp : Nat) (f s : String) (args : Option String)
      (wb : Workbook) (hdr : Row) (rows : List Row) (page : Int),
      fs.lookup f = some wb → wb.lookup s = some (hdr :: rows) →
      parsePageArg args = some page →
      0 < page → 1 ≤ pp → wfSheetB (hdr :: rows) = true →
      rows.length ≤ (page.toNat - 1) * pp →
      dataOf (get_sheet_data fs pp f s args) = some [] ∧
      hasMoreOf (get_sheet_data fs pp f s args) = some false ∧
      nextPageOf (get_sheet_data fs pp f s args) = some none) := by
  constructor
  · intro fs pp f s args b h
    obtain ⟨wb, sheet, pl, hfs, hm, hpos, hwb, htl, hf, hs, hper, htot, hhm,
      hnp, hd⟩ := get_sheet_data_ok fs pp f s args b h
    have hp1 : 1 ≤ b.page.toNat := by omega
    have hmul : (b.page.toNat - 1) * pp + pp = b.page.toNat * pp := by
      have h3 : b.page.toNat - 1 + 1 = b.page.toNat := by omega
      calc (b.page.toNat - 1) * pp + pp = ((b.page.toNat - 1) + 1) * pp := by
            ring
        _ = b.page.toNat * pp := by rw [h3]
    rw [hhm, htot, hmul]
  · intro fs pp f s args wb hdr rows page hfs hwb hpage hpos hpp hwf hbeyond
    rw [get_sheet_data_wf fs pp f s args wb hdr rows page hfs hwb hpage hpos
      hpp hwf]
    have hdec : decide ((page.toNat - 1) * pp + pp < rows.length) = false := by
      rw [decide_eq_false_iff_not]
      omega
    have hwin : pageWindowRows hdr rows ((page.toNat - 1) * pp) pp = [] := by
      unfold pageWindowRows
      apply List.drop_eq_nil_of_le
      rw [List.length_map]
      have h1 := dropTrailingBlank_length_le
        ((rows.take (pp + (page.toNat - 1) * pp)).map trimTrailingEmpty)
      rw [List.length_map, List.length_take] at h1
      omega
    refine ⟨?_, ?_, ?_⟩
    · simp only [dataOf, HttpResult.body?, Option.map, pageRecords, hwin]
      rfl
    · simp only [hasMoreOf, HttpResult.body?, Option.map, hdec]
    · simp only [nextPageOf, HttpResult.body?, Option.map, hdec]
      rfl

/-- C4 (witness): the `has_more` formula on `sheetOK` page 1, and the
beyond-the-last-page request `page = 9` on `sheetOK`. -/
theorem C4_witness :
    (bodyOK1.has_more = decide (bodyOK1.page.toNat * 2 < bodyOK1.total_rows)) ∧
    (dataOf (get_sheet_data fsOK 2 "d.xlsx" "S" (some "9")) = some [] ∧
      hasMoreOf (get_sheet_data fsOK 2 "d.xlsx" "S" (some "9")) = some false ∧
      nextPageOf (get_sheet_data fsOK 2 "d.xlsx" "S" (some "9")) = some none) :=
  ⟨C4_amended.1 fsOK 2 "d.xlsx" "S" (some "1") bodyOK1 (by decide),
   C4_amended.2 fsOK 2 "d.xlsx" "S" (some "9") [("S", sheetOK)] ["Name", "Age"]
    [["Alice", "30"], ["Bob", "25"], ["Carol", "41"], ["Dave", "19"]] 9
    (by decide) (by decide) (by decide) (by decide) (by decide) (by decide)
    (by decide)⟩

/-- C5 (counterexample): requesting an existing file with a sheet name that
does not exist yields the generic 500 ("Could not load sheet: ...") produced
by the `except Exception` handler, not a 404 `NotFound`: the sheet-existence
failure is raised inside `pd.read_excel` and caught by the catch-all. -/
theorem C5_counterexample :
    get_sheet_data fs4 25 "f.xlsx" "T" none =
      .serverError "Could not load sheet: Worksheet named 'T' not found" := by
  decide

/-- C5 (amended): only file-not-found is mapped to 404; a missing sheet in an
existing file (with a valid page) surfaces as the 500 read-failure message
built from the underlying pandas error, before any row is streamed. -/
theorem C5_amended :
    (∀ (fs : FileSystem) (pp : Nat) (f s : String) (args : Option String),
      fs.lookup f = none →
      get_sheet_data fs pp f s args = .notFound "File not found") ∧
    (∀ (fs : FileSystem) (pp : Nat) (f s : String) (args : Option String)
      (wb : Workbook) (page : Int), fs.lookup f = some wb →
      wb.lookup s = none →
      parsePageArg args = some page →
      0 < page →
      get_sheet_data fs pp f s args =
        .serverError ("Could not load sheet: Worksheet named '" ++ s ++
          "' not found")) := by
  constructor
  · intro fs pp f s args hfs
    simp only [get_sheet_data, hfs]
  · intro fs pp f s args wb page hfs hwb hpage hpos
    simp only [get_sheet_data, hfs, hpage, hwb]
    rw [if_neg (by omega)]

/-- C5 (witness): a missing file gives 404; the missing sheet `"T"` in the
existing file `"f.xlsx"` gives the 500. -/
theorem C5_witness :
    get_sheet_data ([] : FileSystem) 25 "g.xlsx" "S" none =
      .notFound "File not found" ∧
    get_sheet_data fs4 25 "f.xlsx" "T" (some "2") =
      .serverError ("Could not load sheet: Worksheet named '" ++ "T" ++
        "' not found") :=
  ⟨C5_amended.1 [] 25 "g.xlsx" "S" none (by decide),
   C5_amended.2 fs4 25 "f.xlsx" "T" (some "2") [("S", sheet4)] 2 (by decide)
    (by decide) (by decide) (by decide)⟩

/-- The body returned for `sheet4` at pageSize 3, page 1. -/
def body4p1 : PageBody :=
  { file := "f.xlsx", sheet := "S", page := 1, per_page := 3, total_rows := 3,
    has_more := false, next_page := none,
    data := [[("Name", some "Alice"), ("Age", some "30")],
             [("Name", none), ("Age", none)],
             [("Name", some "Bob"), ("Age", some "25")]] }

/-- C6 (counterexample): on a last page (`has_more = false`) the serialized
response still carries the key `next_page`, bound to JSON `null` (Python
`None` under `jsonify`) — a falsy placeholder — rather than omitting the
descriptor. -/
theorem C6_counterexample :
    get_sheet_data fs4 3 "f.xlsx" "S" (some "1") = .ok body4p1 ∧
    body4p1.has_more = false ∧
    ("next_page", Jval.null) ∈ bodyFields body4p1 := by
  refine ⟨by decide, by decide, ?_⟩
  exact nextPageJson_null_mem body4p1 (by decide)

/-- C6 (amended): on every 200 response, if `has_more` then `next_page` is
the fully-formed next-page URL `nextPageUrl` (percent-encoding file and sheet
via `quote`, carrying `page + 1`); if not `has_more`, the handler's
`next_page` value is Python `None`, and the serialized body still contains
the field `next_page` with JSON `null`. -/
theorem C6_amended (fs : FileSystem) (pp : Nat) (f s : String)
    (args : Option String) (b : PageBody)
    (h : get_sheet_data fs pp f s args = .ok b) :
    (b.has_more = true → b.next_page = some (nextPageUrl f s b.page)) ∧
    (b.has_more = false → b.next_page = none ∧
      ("next_page", Jval.null) ∈ bodyFields b) := by
  obtain ⟨wb, sheet, pl, hfs, hm, hpos, hwb, htl, hf, hs, hper, htot, hhm,
    hnp, hd⟩ := get_sheet_data_ok fs pp f s args b h
  constructor
  · intro htrue
    rw [hnp, if_pos htrue]
  · intro hfalse
    have hnone : b.next_page = none := by
      rw [hnp, if_neg]
      rw [hfalse]
      simp
    exact ⟨hnone, nextPageJson_null_mem b hnone⟩

/-- The body returned for `sheet4` at pageSize 2, page 1. -/
def body4pp2 : PageBody :=
  { file := "f.xlsx", sheet := "S", page := 1, per_page := 2, total_rows := 3,
    has_more := true, next_page := some "/file/f.xlsx/sheet/S?page=2",
    data := [[("Name", some "Alice"), ("Age", some "30")]] }

/-- C6 (witness): the amended descriptor behavior at `sheet4`, pageSize 2,
page 1 (`has_more = true`): the `next_page` URL carries `page + 1` and the
percent-encoded identifiers. -/
theorem C6_witness :
    body4pp2.next_page = some (nextPageUrl "f.xlsx" "S" body4pp2.page) :=
  (C6_amended fs4 2 "f.xlsx" "S" (some "1") body4pp2 (by decide)).1 (by decide)

/-- C7 (counterexample): a request with the non-positive page `"0"` against a
nonexistent file fails with 404 `NotFound`, not 400 `InvalidParameter`: the
file-existence check precedes page validation. -/
theorem C7_counterexample :
    pyInt? "0" = some 0 ∧
    get_sheet_data ([] : FileSystem) 25 "g.xlsx" "S" (some "0") =
      .notFound "File not found" := by
  decide

/-- C7 (amended): for a request addressing an existing file, a page
parameter that does not parse as a Python integer, or parses to a
non-positive value, fails with 400 ("Invalid page value") and no sheet data
is returned. -/
theorem C7_amended (fs : FileSystem) (pp : Nat) (f s : String) (wb : Workbook)
    (str : String) (hfs : fs.lookup f = some wb)
    (hbad : pyInt? str = none ∨ ∃ k, pyInt? str = some k ∧ k ≤ 0) :
    get_sheet_data fs pp f s (some str) = .badRequest "Invalid page value" ∧
    dataOf (get_sheet_data fs pp f s (some str)) = none := by
  have hmain : get_sheet_data fs pp f s (some str) =
      .badRequest "Invalid page value" := by
    simp only [get_sheet_data, hfs, parsePageArg]
    rcases hbad with h | ⟨k, hk, hk0⟩
    · simp only [h]
    · simp only [hk]
      rw [if_pos hk0]
  exact ⟨hmain, by rw [hmain]; rfl⟩

/-- C7 (witness): the amended validation at `fs4` with page `"0"` and with
the unparsable page `"abc"`. -/
theorem C7_witness :
    (get_sheet_data fs4 25 "f.xlsx" "S" (some "0") =
        .badRequest "Invalid page value" ∧
      dataOf (get_sheet_data fs4 25 "f.xlsx" "S" (some "0")) = none) ∧
    (get_sheet_data fs4 25 "f.xlsx" "S" (some "abc") =
        .badRequest "Invalid page value" ∧
      dataOf (get_sheet_data fs4 25 "f.xlsx" "S" (some "abc")) = none) :=
  ⟨C7_amended fs4 25 "f.xlsx" "S" [("S", sheet4)] "0" (by decide)
    (Or.inr ⟨0, by decide, by decide⟩),
   C7_amended fs4 25 "f.xlsx" "S" [("S", sheet4)] "abc" (by decide)
    (Or.inl (by decide))⟩

/-- C8: for a well-formed sheet, every window row whose trimmed cell list is
shorter than the (trimmed) header still yields a Record keyed by every header
field name, with the missing trailing fields present and mapped to the absent
value (pandas NaN, from the reader's empty-cell padding), not omitted. -/
theorem C8_theorem (fs : FileSystem) (pp : Nat) (f s : String)
    (args : Option String) (wb : Workbook) (hdr : Row) (rows : List Row)
    (page : Int) (j : Nat) (r : Row) (hfs : fs.lookup f = some wb)
    (hwb : wb.lookup s = some (hdr :: rows))
    (hpage : parsePageArg args = some page)
    (hpos : 0 < page) (hpp : 1 ≤ pp) (hwf : wfSheetB (hdr :: rows) = true)
    (hr : ((dropTrailingBlank ((rows.take (pp + (page.toNat - 1) * pp)).map
      trimTrailingEmpty)).drop ((page.toNat - 1) * pp))[j]? = some r)
    (hshort : r.length < (trimTrailingEmpty hdr).length) :
    ((dataOf (get_sheet_data fs pp f s args)).getD [])[j]? =
      some (recordOfRow (sheetCols hdr)
        (padTo (trimTrailingEmpty hdr).length r)) ∧
    (recordOfRow (sheetCols hdr)
      (padTo (trimTrailingEmpty hdr).length r)).map Prod.fst = sheetCols hdr ∧
    (∀ i : Nat, r.length ≤ i → i < (trimTrailingEmpty hdr).length →
      (recordOfRow (sheetCols hdr)
        (padTo (trimTrailingEmpty hdr).length r))[i]? =
        some ((sheetCols hdr).getD i "", none)) := by
  have hpadlen : (padTo (trimTrailingEmpty hdr).length r).length =
      (trimTrailingEmpty hdr).length := by
    rw [padTo_length]
    omega
  have hvals : ((padTo (trimTrailingEmpty hdr).length r).map toVal).length =
      (trimTrailingEmpty hdr).length := by
    rw [List.length_map, hpadlen]
  refine ⟨?_, ?_, ?_⟩
  · rw [get_sheet_data_wf fs pp f s args wb hdr rows page hfs hwb hpage hpos
      hpp hwf]
    simp only [dataOf, HttpResult.body?, Option.map, Option.getD, pageRecords,
      pageWindowRows]
    rw [← List.map_drop, List.map_map, List.getElem?_map, hr]
    rfl
  · apply List.map_fst_zip
    rw [hvals, sheetCols_length]
  · intro i hge hlt
    have hlen : i < (sheetCols hdr).length := by
      rw [sheetCols_length]
      omega
    have hcols : (sheetCols hdr)[i]? = some ((sheetCols hdr).getD i "") := by
      rw [List.getElem?_eq_getElem hlen, List.getD_eq_getElem _ _ hlen]
    have hvi : ((padTo (trimTrailingEmpty hdr).length r).map toVal)[i]? =
        some none := by
      rw [List.getElem?_map, padTo_getElem?_of_ge _ _ _ hge hlt]
      simp [toVal_empty]
    exact zip_getElem? _ _ i _ _ hcols hvi

/-- C8 (witness): `sheetC8`'s single data row `["Alice"]` is one cell short
of the header `["Name", "Age"]`; its Record carries both field names, with
`"Age"` mapped to the absent value. -/
theorem C8_witness :
    ((dataOf (get_sheet_data fsC8 25 "m.xlsx" "S" none)).getD [])[0]? =
      some (recordOfRow (sheetCols ["Name", "Age"]) (padTo 2 ["Alice"])) ∧
    (recordOfRow (sheetCols ["Name", "Age"])
      (padTo 2 ["Alice"])).map Prod.fst = sheetCols ["Name", "Age"] ∧
    (recordOfRow (sheetCols ["Name", "Age"]) (padTo 2 ["Alice"]))[1]? =
      some ((sheetCols ["Name", "Age"]).getD 1 "", none) := by
  have h := C8_theorem fsC8 25 "m.xlsx" "S" none [("S", sheetC8)]
    ["Name", "Age"] [["Alice"]] 1 0 ["Alice"] (by decide) (by decide)
    (by decide) (by decide) (by decide) (by decide) (by decide) (by decide)
  exact ⟨h.1, h.2.1, h.2.2 1 (by decide) (by decide)⟩

/-- The number of raw sheet rows one `read_excel` call materializes: the
length of the portion `get_sheet_data` (the openpyxl reader) consumes, i.e.
everything up to `file_rows_needed` when given, else the whole sheet. -/
def rowsMaterialized (sheet : SheetData) (fileRowsNeeded : Option Nat) : Nat :=
  (match fileRowsNeeded with
    | none => sheet
    | some n => sheet.take n).length

/-- Raw rows materialized to serve one page: the three reads of the handler —
the unbounded `total_rows` read, the windowed read
(`file_rows_needed = 1 + perPage + start`), and the header read
(`file_rows_needed = 1`). -/
def requestRowsMaterialized (pp : Nat) (sheet : SheetData) (start : Nat) : Nat :=
  rowsMaterialized sheet none +
    rowsMaterialized sheet (some (pageRowsNeeded pp start)) +
    rowsMaterialized sheet (some 1)

/-- C9 (counterexample): serving page 1 of `sheetOK` materializes every raw
row of the sheet — the `total_rows` read has no row bound — so the work for a
page request grows with the file, not the window. -/
theorem C9_counterexample :
    rowsMaterialized sheetOK none = sheetOK.length ∧
    sheetOK.length ≤ requestRowsMaterialized 2 sheetOK 0 := by
  decide

/-- C9 (amended): the windowed read is streaming — it consumes at most
`1 + pageSize + start` raw rows (and the reader's consumed portion is exactly
the `take` of the sheet) — but the `total_rows` read of every page request
always consumes the entire sheet, so a page request materializes the whole
sheet once regardless of the window. -/
theorem C9_amended :
    (∀ (sheet : SheetData) (n : Nat),
      getSheetData sheet (some n) = sheetNorm (sheet.take n) ∧
      rowsMaterialized sheet (some n) ≤ n) ∧
    (∀ (sheet : SheetData) (pp start : Nat),
      rowsMaterialized sheet (some (pageRowsNeeded pp start)) ≤
        1 + pp + start) ∧
    (∀ sheet : SheetData,
      getSheetData sheet none = sheetNorm sheet ∧
      rowsMaterialized sheet none = sheet.length) := by
  refine ⟨fun sheet n => ⟨rfl, ?_⟩, fun sheet pp start => ?_, fun sheet =>
    ⟨rfl, rfl⟩⟩
  · simp only [rowsMaterialized, List.length_take]
    omega
  · simp only [rowsMaterialized, pageRowsNeeded, List.length_take]
    omega

/-- Inversion of a 400 response: it can only come from the page validation,
and only when the file exists. -/
lemma get_sheet_data_badRequest_inv (fs : FileSystem) (pp : Nat) (f s : String)
    (args : Option String) (m : String)
    (h : get_sheet_data fs pp f s args = .badRequest m) :
    ∃ wb, fs.lookup f = some wb ∧
      (parsePageArg args = none ∨
       ∃ page : Int, parsePageArg args = some page ∧ page ≤ 0) := by
  simp only [get_sheet_data] at h
  cases hfs : fs.lookup f with
  | none => simp only [hfs] at h; simp at h
  | some wb =>
    simp only [hfs] at h
    cases hpg : parsePageArg args with
    | none => exact ⟨wb, rfl, Or.inl rfl⟩
    | some page =>
      simp only [hpg] at h
      by_cases hpos : page ≤ 0
      · exact ⟨wb, rfl, Or.inr ⟨page, rfl, hpos⟩⟩
      · rw [if_neg hpos] at h
        cases hwb : wb.lookup s with
        | none => simp only [hwb] at h; simp at h
        | some sheet =>
          simp only [hwb] at h
          cases htl : tryLoad pp sheet ((page.toNat - 1) * pp) with
          | none => simp only [htl] at h; simp at h
          | some pl => simp only [htl] at h; simp at h

/-- Recognizer for the 400 outcome. -/
def HttpResult.isBadRequestResult : HttpResult → Bool
  | .badRequest _ => true
  | _ => false

/-- C10: a request with the page query parameter omitted is handled exactly
like a request for page 1 (`request.args.get("page", 1)`), and never fails
with `InvalidParameter`. -/
theorem C10_theorem :
    (∀ (fs : FileSystem) (pp : Nat) (f s : String),
      get_sheet_data fs pp f s none = get_sheet_data fs pp f s (some "1")) ∧
    (∀ (fs : FileSystem) (pp : Nat) (f s : String),
      (get_sheet_data fs pp f s none).isBadRequestResult = false) := by
  constructor
  · intro fs pp f s
    simp only [get_sheet_data,
      show parsePageArg (some "1") = parsePageArg none from by decide]
  · intro fs pp f s
    cases hres : get_sheet_data fs pp f s none with
    | badRequest m =>
      obtain ⟨wb, hfs, hbad⟩ :=
        get_sheet_data_badRequest_inv fs pp f s none m hres
      rcases hbad with h | ⟨page, hp, hp0⟩
      · simp [parsePageArg] at h
      · simp [parsePageArg] at hp
        omega
    | ok b => rfl
    | notFound m => rfl
    | serverError m => rfl
